import Mathlib

/-!
Verification of the mwb2dbm converter (MySQL Workbench model to pgModeler DBM).

This file shallowly embeds the parts of src/mwb2dbm.py and src/dbo.py that the
verified properties talk about: index filtering and index-name truncation,
custom-domain synthesis for fixed-precision integer columns, enum type naming,
ON UPDATE CURRENT_TIMESTAMP trigger emulation, foreign-key to relationship
synthesis, the foreign-key ordering, the driver control flow, and the
figure-to-layer lookup used for table placement.  Python strings are modelled
as Lean String (or List Char where slicing arithmetic matters), Python ints as
Int, Python sets and dicts used only for membership and insertion order as
Lean lists, and fatal paths (assert, raise, list.remove on a missing element)
as Except.
-/

namespace MwbDbm

/-- dbo.MAX_NAME_LEN -/
def MAX_NAME_LEN : Nat := 63

/-- dbo.Index index types: the indexType attribute is one of PRIMARY, UNIQUE,
INDEX (asserted at construction time in dbo.Index). -/
inductive IndexType where
  | primary
  | unique
  | index
deriving DecidableEq, Repr

/-- The keepidx tuple of mwb2dbm.createDbm line 551: indexes kept even when
all of their member columns belong to a foreign key. -/
def keepIdxTypes (nofkidx : Bool) : List IndexType :=
  if nofkidx then [IndexType.unique] else [IndexType.unique, IndexType.index]

/-- The index filter of createDbm lines 550-554.  Each member column is
represented by whether its table column belongs to a foreign key
(c.tableCol.fk truthiness); icols keeps the members that do not.  The index
is skipped (continue) when icols is empty and its type is not in keepidx. -/
def indexEmitted (memberIsFk : List Bool) (it : IndexType) (nofkidx : Bool) : Bool :=
  let icols := memberIsFk.filter (fun b => !b)
  !(icols.isEmpty && !(decide (it ∈ keepIdxTypes nofkidx)))

/-- Index name composition of createDbm lines 570-576: the table name is used
as a prefix when it does not already occur in the index name and the caller
asked for prefixing (str.find returning -1 means no occurrence). -/
def composedIdxName (tableName idxName : List Char) (prependTableNameInIdx : Bool) :
    List Char :=
  let pfx :=
    if tableName <:+: idxName then []
    else if prependTableNameInIdx then tableName ++ [Char.ofNat 95]
    else []
  pfx ++ idxName

/-- The required suffix _idx of overlong index names, written as characters. -/
def idxSuffix : List Char := [Char.ofNat 95, Char.ofNat 105, Char.ofNat 100, Char.ofNat 120]

/-- Index name truncation of createDbm lines 577-581: a name longer than
MAX_NAME_LEN must end in _idx (assert, fatal otherwise) and is cut to
MAX_NAME_LEN - 4 characters followed by _idx. -/
def truncateIdxName (idxname : List Char) : Except (List Char) (List Char) :=
  if idxname.length > MAX_NAME_LEN then
    if idxSuffix <:+ idxname then
      Except.ok (idxname.take (MAX_NAME_LEN - 4) ++ idxSuffix)
    else
      Except.error idxname
  else
    Except.ok idxname

/-- Full index naming step: composition followed by truncation. -/
def makeIdxName (tableName idxName : List Char) (prependTableNameInIdx : Bool) :
    Except (List Char) (List Char) :=
  truncateIdxName (composedIdxName tableName idxName prependTableNameInIdx)

/-- A 10-character index name. -/
def c6short : List Char := List.replicate 10 (Char.ofNat 97)

/-- A 70-character index name ending in _idx. -/
def c6longOk : List Char := List.replicate 66 (Char.ofNat 97) ++ idxSuffix

/-- A 70-character index name not ending in _idx. -/
def c6longBad : List Char := List.replicate 70 (Char.ofNat 97)

/-- A one-character table name (z) that occurs in none of the above. -/
def c6table : List Char := [Char.ofNat 122]

/-! ### Custom-domain synthesis (createDbm lines 230-234 and 454-480) -/

/-- One domain element as appended by Main._addDomainNodes: its name, the base
type child, and the check constraint child with its expression. -/
structure DomainNode where
  name : String
  baseType : String
  constraintName : String
  constraintExpr : String
deriving DecidableEq, Repr

/-- State threaded through domain synthesis: the domains memoization set and
the domain elements appended to the output tree so far, in order. -/
structure DomState where
  domains : List String
  emitted : List DomainNode
deriving DecidableEq, Repr

/-- The loop of createDbm lines 230-234: unconditional unsigned-integer
domains u<type> with check constraint VALUE >= 0. -/
def initDomState : DomState :=
  ["smallint", "integer", "bigint"].foldl
    (fun st it =>
      { domains := st.domains ++ ["u" ++ it],
        emitted := st.emitted ++ [⟨"u" ++ it, it, "ge0", "VALUE >= 0"⟩] })
    ⟨[], []⟩

/-- The Python expression given by 9 repeated precision times. -/
def nines (p : Int) : String := String.mk (List.replicate p.toNat (Char.ofNat 57))

/-- Domain name of createDbm lines 460-462: dname = type + str(precision),
then u-prefixed when the UNSIGNED flag is present. -/
def mkDomainName (ty : String) (p : Int) (unsigned : Bool) : String :=
  if unsigned then "u" ++ (ty ++ toString p) else ty ++ toString p

/-- Check expression of createDbm lines 463-470: minVal is 0 when unsigned,
otherwise minus precision nines; maxVal is precision nines. -/
def mkRangeExpr (p : Int) (unsigned : Bool) : String :=
  "VALUE >= " ++ (if unsigned then "0" else "-" ++ nines p) ++
    " AND VALUE <= " ++ nines p

/-- Memoized domain creation of createDbm lines 460-472: when the composed
name is not yet in the domains set, append a domain element (range<precision>
check constraint) and record the name; either way the column type becomes
public.<dname>. -/
def domainStepCore (ty : String) (p : Int) (unsigned : Bool) (st : DomState) :
    String × DomState :=
  let dname := mkDomainName ty p unsigned
  if dname ∈ st.domains then ("public." ++ dname, st)
  else ("public." ++ dname,
    { domains := dname :: st.domains,
      emitted := st.emitted ++
        [⟨dname, ty, "range" ++ toString p, mkRangeExpr p unsigned⟩] })

/-- Lines 460-473 including line 473: flags.remove(UNSIGNED) is executed
unconditionally, and Python list.remove raises ValueError when the element is
absent, so a column without the UNSIGNED flag aborts the conversion here. -/
def domainStep (ty : String) (p : Int) (flags : List String) (st : DomState) :
    Except String (String × List String × DomState) :=
  let unsigned : Bool := decide ("UNSIGNED" ∈ flags)
  let r := domainStepCore ty p unsigned st
  if "UNSIGNED" ∈ flags then
    Except.ok (r.1, flags.erase "UNSIGNED", r.2)
  else
    Except.error "ValueError: list.remove(x): x not in list"

/-- Result of the length/precision/scale dispatch for one column: the column
type, remaining flags, the length and precision attributes of the type
element, and the updated domain state. -/
structure LpsOut where
  ty : String
  flags : List String
  attrLength : String
  attrPrecision : Option String
  st : DomState
deriving DecidableEq, Repr

/-- The length/precision/scale policy of createDbm lines 448-480, with the
asserts and the ValueError as errors.  attrLength0 is the incoming
attrs[length] value (0 unless a text type forced one earlier). -/
def applyLenPrecScale (length precision scale : Int) (attrLength0 : String)
    (ty : String) (flags : List String) (st : DomState) : Except String LpsOut :=
  if length > 0 then
    if precision < 0 ∧ scale < 0 then
      if attrLength0 = "0" then
        Except.ok ⟨ty, flags, toString length, none, st⟩
      else Except.error "AssertionError: length attribute already set"
    else Except.error "AssertionError: length with precision or scale"
  else if precision > 0 then
    if length < 0 then
      if scale < 0 then
        match domainStep ty precision flags st with
        | Except.error e => Except.error e
        | Except.ok (ty2, flags2, st2) =>
          Except.ok ⟨ty2, flags2, attrLength0, none, st2⟩
      else
        if attrLength0 = "0" then
          Except.ok ⟨ty, flags, toString precision, some (toString scale), st⟩
        else Except.error "AssertionError: length attribute already set"
    else Except.error "AssertionError: precision with length"
  else if scale > 0 then
    Except.error "AssertionError: scale without precision or length"
  else
    Except.ok ⟨ty, flags, attrLength0, none, st⟩

/-- One column that reaches the domain branch (precision > 0, scale < 0),
described by the data the branch reads: the mapped base type, the precision
and the flags list. -/
structure DomReq where
  ty : String
  prec : Int
  flags : List String
deriving DecidableEq, Repr

/-- The domain name a request composes (lines 460-462). -/
def dnameOf (r : DomReq) : String :=
  mkDomainName r.ty r.prec (decide ("UNSIGNED" ∈ r.flags))

/-- All domain-branch columns of one run, processed in table then column
order, threading the domains set and the output tree; the first component
collects each column's resulting type reference. -/
def runDomains : List DomReq → DomState → Except String (List String × DomState)
  | [], st => Except.ok ([], st)
  | r :: rs, st =>
    match domainStep r.ty r.prec r.flags st with
    | Except.error e => Except.error e
    | Except.ok (outTy, _, st1) =>
      match runDomains rs st1 with
      | Except.error e => Except.error e
      | Except.ok (outs, st2) => Except.ok (outTy :: outs, st2)

/-- How many domain elements with a given name have been appended. -/
def emittedCount (st : DomState) (n : String) : Nat :=
  (st.emitted.map (fun d => d.name)).count n

def c4req : DomReq := ⟨"integer", 10, ["UNSIGNED"]⟩

def c4reqs : List DomReq := [c4req, c4req]

def c4outs : List String := ["public.uinteger10", "public.uinteger10"]

def c4st : DomState :=
  ⟨["uinteger10", "usmallint", "uinteger", "ubigint"],
   [⟨"usmallint", "smallint", "ge0", "VALUE >= 0"⟩,
    ⟨"uinteger", "integer", "ge0", "VALUE >= 0"⟩,
    ⟨"ubigint", "bigint", "ge0", "VALUE >= 0"⟩,
    ⟨"uinteger10", "integer", "range10", "VALUE >= 0 AND VALUE <= 9999999999"⟩]⟩

/-! ### Enum type naming (createDbm lines 351-356) -/

/-- One ENUM column: compose enum_<colname>; on collision with the enums seen
so far, insert len(enums)+1 as an ordinal and assert the result is new; then
record the chosen name.  The assert is the error case. -/
def enumStep (enums : List String) (colName : String) :
    Except String (String × List String) :=
  let t := "enum_" ++ colName
  if t ∈ enums then
    let t2 := "enum_" ++ toString (enums.length + 1) ++ "_" ++ colName
    if t2 ∈ enums then Except.error t2
    else Except.ok (t2, t2 :: enums)
  else Except.ok (t, t :: enums)

/-- All ENUM columns of one run in order, threading the enums set and
collecting the chosen type name of each column. -/
def runEnums : List String → List String → Except String (List String × List String)
  | [], enums => Except.ok ([], enums)
  | c :: cs, enums =>
    match enumStep enums c with
    | Except.error e => Except.error e
    | Except.ok (t, e1) =>
      match runEnums cs e1 with
      | Except.error e => Except.error e
      | Except.ok (ts, e2) => Except.ok (t :: ts, e2)

/-! ### ON UPDATE CURRENT_TIMESTAMP emulation (createDbm lines 402-446,
_createUpdateTimestampFunction lines 71-112) -/

/-- The single-quote character. -/
def quoteChar : Char := Char.ofNat 39

/-- The special MySQL default value recognised at line 416. -/
def onUpdStr : String := "CURRENT_TIMESTAMP ON UPDATE CURRENT_TIMESTAMP"

/-- A trigger element as built at lines 427-440 (and 636-650). -/
structure TrigNode where
  name : String
  firingType : String
  perLine : Bool
  insEvent : Bool
  delEvent : Bool
  updEvent : Bool
  truncEvent : Bool
  table : String
  funcSignature : String
deriving DecidableEq, Repr

/-- A trigger function element as built by _createUpdateTimestampFunction:
its name, comment and plpgsql body (the remaining attributes are fixed). -/
structure FuncNode where
  name : String
  comment : String
  definition : String
deriving DecidableEq, Repr

/-- Main._createUpdateTimestampFunction (lines 71-112). -/
def createUpdateTimestampFunction (funcName colName : String) : FuncNode :=
  { name := funcName,
    comment := "ON UPDATE CURRENT TIMESTAMP equivalent for column " ++ colName,
    definition := "BEGIN\n    IF (NEW::varchar != OLD::varchar) THEN\n        NEW." ++
      colName ++ " = CURRENT_TIMESTAMP;\n        RETURN NEW;\n    END IF;\n    RETURN OLD;\nEND;\n" }

/-- The per-occurrence BEFORE UPDATE trigger of lines 427-441. -/
def mkUpdTrigger (tableName colName : String) : TrigNode :=
  { name := tableName ++ "_t_update_" ++ colName,
    firingType := "BEFORE",
    perLine := true,
    insEvent := false,
    delEvent := false,
    updEvent := true,
    truncEvent := false,
    table := "public." ++ tableName,
    funcSignature := "public." ++ ("update_" ++ colName ++ "_on_update") ++ "()" }

/-- State across columns: the updateTsFunctions ordered dict (keys, and the
function nodes in insertion order) and the updateTsTriggers list. -/
structure TsState where
  funcNames : List String
  funcs : List FuncNode
  trigs : List TrigNode
deriving DecidableEq, Repr

/-- Default-value handling of createDbm lines 402-446 for a column whose dv
is truthy: the if/elif chain on dv, returning the default-value string set on
the column element and the updated function/trigger state.  ty is the mapped
destination type (used by the boolean rewrites). -/
def processDefault (ty dv tableName colName : String) (st : TsState) :
    String × TsState :=
  if dv = "1" then
    ((if ty = "boolean" then "TRUE" else dv), st)
  else if dv = "0" then
    ((if ty = "boolean" then "FALSE" else dv), st)
  else if dv = "TRUE" ∨ dv = "FALSE" ∨ dv = "CURRENT_TIMESTAMP" then
    (dv, st)
  else if (dv.data.head? == some quoteChar) && (dv.data.getLast? == some quoteChar) then
    (dv, st)
  else if dv = onUpdStr then
    let funcName := "update_" ++ colName ++ "_on_update"
    let st1 :=
      if funcName ∈ st.funcNames then st
      else
        { funcNames := st.funcNames ++ [funcName],
          funcs := st.funcs ++ [createUpdateTimestampFunction funcName colName],
          trigs := st.trigs }
    ("CURRENT_TIMESTAMP",
      { st1 with trigs := st1.trigs ++ [mkUpdTrigger tableName colName] })
  else
    (dv, st)

/-! ### Foreign keys to relationships (createDbm lines 655-701) -/

/-- A foreign-key member column: dbo.Column as read here (name, isNotNull). -/
structure FkCol where
  name : String
  isNotNull : Bool
deriving DecidableEq, Repr

/-- One dbo.ForeignKey as read during relationship synthesis: attribute bag
entries (referencedTable is optional: some source entries lack it), the owned
columns, the derived primary flag and the owning table name. -/
structure FKey where
  name : String
  referencedTable : Option String
  many : Bool
  mandatory : Bool
  updateRule : String
  deleteRule : String
  columns : List FkCol
  primary : Bool
  tableName : String
deriving DecidableEq, Repr

/-- A relationship element as built at lines 675-692 (fixed-pattern
attributes carried for reference). -/
structure RelNode where
  name : String
  relType : String
  srcColPattern : String
  pkPattern : String
  uqPattern : String
  srcFkPattern : String
  srcTable : String
  dstTable : String
  srcRequired : Bool
  dstRequired : Bool
  identifier : Bool
  updAction : String
  delAction : String
deriving DecidableEq, Repr

/-- Relationship synthesis for one foreign key (lines 658-692): missing
referencedTable is skipped, non-many cardinality raises NotImplementedError,
a dangling referenced table is an assert, owning other than exactly one
column raises NotImplementedError; otherwise the relationship element is
built.  tables is the (id, name) list scanned for the referenced table. -/
def processFk (tables : List (String × String)) (fk : FKey) :
    Except String (Option RelNode) :=
  match fk.referencedTable with
  | none => Except.ok none
  | some rt =>
    if !fk.many then
      Except.error ("NotImplementedError: " ++ fk.name)
    else
      match tables.find? (fun t => t.1 == rt) with
      | none => Except.error ("AssertionError: " ++ fk.name)
      | some rtable =>
        match fk.columns with
        | [scol] =>
          Except.ok (some
            { name := fk.name,
              relType := "rel1n",
              srcColPattern := scol.name,
              pkPattern := "\x7bdt\x7d_pk",
              uqPattern := "\x7bdt\x7d_uq",
              srcFkPattern := "\x7bst\x7d_fk",
              srcTable := "public." ++ rtable.2,
              dstTable := "public." ++ fk.tableName,
              srcRequired := fk.mandatory && scol.isNotNull,
              dstRequired := false,
              identifier := fk.primary,
              updAction := fk.updateRule,
              delAction := fk.deleteRule })
        | _ => Except.error ("NotImplementedError: " ++ fk.name)

/-- Whether an Except is the error case. -/
def exceptIsError {ε α : Type} : Except ε α → Bool
  | Except.error _ => true
  | Except.ok _ => false

def c7fkNoRef : FKey :=
  ⟨"fk1", none, true, true, "CASCADE", "CASCADE", [⟨"col1", true⟩], false, "tab1"⟩

def c7fkNotMany : FKey :=
  ⟨"fk2", some "tid", false, true, "CASCADE", "CASCADE", [⟨"col1", true⟩], false, "tab1"⟩

/-! ### Foreign-key ordering (line 657) and driver control flow (convert,
lines 724-789; mergeDbm, lines 856-870) -/

/-- Stable insertion of one foreign key into an already sorted list for
descending order on the boolean primary key: the element is placed after
every earlier element whose key is not smaller, as Python sorted with
reverse=True guarantees for equal keys. -/
def insertFkDesc (x : FKey) : List FKey → List FKey
  | [] => [x]
  | y :: ys => if x.primary && !y.primary then x :: y :: ys else y :: insertFkDesc x ys

/-- Model of sorted(fks, key=lambda x: x.primary, reverse=True) at line 657:
a stable sort on the primary flag, identifying relationships first. -/
def sortFksByPrimary (fks : List FKey) : List FKey :=
  fks.foldl (fun acc x => insertFkDesc x acc) []

/-- One element of the pgModeler output tree, by tag; the payload stands for
its attributes and children, which the driver moves around opaquely. -/
structure XElem where
  tag : String
  payload : String
deriving DecidableEq, Repr

/-- Main.mergeDbm (lines 856-870): function and aggregate children of the
merged tree are inserted, in order, immediately before the first trigger
child of the original root, or appended at the end when there is no trigger;
all other merged elements are ignored. -/
def mergeDbm (orig merge : List XElem) : List XElem :=
  let adds := merge.filter (fun c => c.tag == "function" || c.tag == "aggregate")
  let pre := orig.takeWhile (fun c => !(c.tag == "trigger"))
  let post := orig.dropWhile (fun c => !(c.tag == "trigger"))
  if post.isEmpty then orig ++ adds else pre ++ adds ++ post

/-- The merge loop of convert lines 778-781: each entry is the outcome of
loadDbm on one merge path; a failing load aborts, a successful one is spliced
in by mergeDbm. -/
def mergeAll (t : List XElem) : List (Except String (List XElem)) → Except String (List XElem)
  | [] => Except.ok t
  | m :: ms =>
    match m with
    | Except.error e => Except.error e
    | Except.ok mt => mergeAll (mergeDbm t mt) ms

/-- The inputs that decide the driver control flow of Main.convert: whether
document.mwb.xml is in the archive, the two root attributes checked at lines
747-750, whether the document/model structure assertions of lines 757-773
hold, the outcome of convertModel (covering every model-construction and
synthesis fatal), the outcomes of the merge loads, and the derived output
path. -/
structure ConvEnv where
  innerPresent : Bool
  grtFormat : String
  documentType : String
  docStructOk : Bool
  modelResult : Except String (List XElem)
  mergeLoads : List (Except String (List XElem))
  outPath : String

/-- The fallible part of Main.convert (lines 737-781), in program order. -/
def convertSteps (env : ConvEnv) : Except String (List XElem) :=
  if !env.innerPresent then
    Except.error "InvalidFileFormatException: document.mwb.xml not found"
  else if env.grtFormat ≠ "2.0" then
    Except.error "InvalidFileFormatException: grt_format"
  else if env.documentType ≠ "MySQL Workbench Model" then
    Except.error "InvalidFileFormatException: document_type"
  else if !env.docStructOk then
    Except.error "AssertionError: document structure"
  else
    match env.modelResult with
    | Except.error e => Except.error e
    | Except.ok tree => mergeAll tree env.mergeLoads

/-- Main.convert (lines 724-789): run all fallible steps, then open the
destination file and write the serialized tree (lines 788-789).  The second
component records the files written. -/
def convert (env : ConvEnv) : Except String Unit × List (String × List XElem) :=
  match convertSteps env with
  | Except.error e => (Except.error e, [])
  | Except.ok merged => (Except.ok (), [(env.outPath, merged)])

/-- An environment whose archive lacks the inner document. -/
def c9env : ConvEnv :=
  ⟨false, "2.0", "MySQL Workbench Model", true, Except.ok [], [], "model.dbm"⟩

/-! ### Figure-to-layer lookup and table placement (dbo.Diagram.getFigureLayer
lines 334-340, createDbm lines 266-276) -/

/-- A dbo.Layer as read here: its id and the attributes used by table
emission. -/
structure LayerD where
  id : String
  name : String
  left : ℚ
  top : ℚ

/-- A table figure: its layer attribute (a layer id) and position. -/
structure FigureD where
  layer : String
  left : ℚ
  top : ℚ

/-- Diagram.getFigureLayer: the first layer whose id equals the figure layer
attribute, or none. -/
def getFigureLayer (layers : List LayerD) (fig : FigureD) : Option LayerD :=
  layers.find? (fun l => l.id == fig.layer)

/-- Position scale ratios of Main (lines 35-36), as exact rationals. -/
def POS_SCALE_X : ℚ := 18 / 10

def POS_SCALE_Y : ℚ := 12 / 10

/-- Python int() truncates toward zero. -/
def pyInt (q : ℚ) : Int := if q < 0 then Int.ceil q else Int.floor q

/-- The tag child of a table element (lines 266-270): present only when the
layer lookup returned one. -/
def tableTagName (layer : Option LayerD) : Option String :=
  match layer with
  | some l => some l.name.toLower
  | none => none

/-- The position child of a table element (lines 272-275): the parenthesised
conditional makes the whole sum zero when there is no layer, so the figure
coordinates are not used at all in that case. -/
def tablePos (layer : Option LayerD) (fig : FigureD) : Int × Int :=
  (pyInt ((match layer with | some l => fig.left + l.left | none => 0) * POS_SCALE_X),
   pyInt ((match layer with | some l => fig.top + l.top | none => 0) * POS_SCALE_Y))

/-- A diagram with one layer. -/
def c10layers : List LayerD := [⟨"layer-1", "Main", 5, 7⟩]

/-- A figure at (100, 200) referencing a missing layer id. -/
def c10fig : FigureD := ⟨"layer-missing", 100, 200⟩

/-! ### Theorems -/

/-- C2: an index all of whose member columns are foreign-key members is
dropped unless it is UNIQUE, with INDEX additionally retained when foreign-key
indexes are kept (nofkidx = false); an index with at least one
non-foreign-key member column is always emitted. -/
theorem claim_C2_fk_index_filter (memberIsFk : List Bool) (it : IndexType) (nofkidx : Bool) :
    indexEmitted memberIsFk it nofkidx = true ↔
      ((∃ b ∈ memberIsFk, b = false) ∨ it = IndexType.unique ∨
        (nofkidx = false ∧ it = IndexType.index)) := by
  have hne : ((memberIsFk.filter (fun b => !b)).isEmpty = false) ↔
      ∃ b ∈ memberIsFk, b = false := by
    rw [List.isEmpty_eq_false, ne_eq, List.filter_eq_nil_iff]
    push_neg
    simp
  unfold indexEmitted keepIdxTypes
  cases nofkidx <;> cases it <;> simp_all [hne]

/-- C6: for any composed (possibly table-name-prefixed) index name, a name of
at most 63 characters is emitted unchanged; a longer name ending in _idx is
truncated to exactly 63 characters and still ends in _idx; a longer name not
ending in _idx is a fatal error. -/
theorem claim_C6_idx_name_truncation (tableName idxName : List Char)
    (prependTableNameInIdx : Bool) :
    ((composedIdxName tableName idxName prependTableNameInIdx).length ≤ MAX_NAME_LEN →
      makeIdxName tableName idxName prependTableNameInIdx =
        Except.ok (composedIdxName tableName idxName prependTableNameInIdx)) ∧
    ((composedIdxName tableName idxName prependTableNameInIdx).length > MAX_NAME_LEN →
      idxSuffix <:+ composedIdxName tableName idxName prependTableNameInIdx →
      makeIdxName tableName idxName prependTableNameInIdx =
        Except.ok ((composedIdxName tableName idxName prependTableNameInIdx).take
            (MAX_NAME_LEN - 4) ++ idxSuffix) ∧
        ((composedIdxName tableName idxName prependTableNameInIdx).take
            (MAX_NAME_LEN - 4) ++ idxSuffix).length = MAX_NAME_LEN ∧
        idxSuffix <:+ ((composedIdxName tableName idxName prependTableNameInIdx).take
            (MAX_NAME_LEN - 4) ++ idxSuffix)) ∧
    ((composedIdxName tableName idxName prependTableNameInIdx).length > MAX_NAME_LEN →
      ¬ (idxSuffix <:+ composedIdxName tableName idxName prependTableNameInIdx) →
      makeIdxName tableName idxName prependTableNameInIdx =
        Except.error (composedIdxName tableName idxName prependTableNameInIdx)) := by
  refine ⟨fun h => ?_, fun h hs => ⟨?_, ?_, ?_⟩, fun h hs => ?_⟩
  · simp [makeIdxName, truncateIdxName, Nat.not_lt.mpr h]
  · simp [makeIdxName, truncateIdxName, h, hs]
  · have ht : ((composedIdxName tableName idxName prependTableNameInIdx).take
        (MAX_NAME_LEN - 4)).length = MAX_NAME_LEN - 4 := by
      rw [List.length_take]
      omega
    rw [List.length_append, ht]
    simp [idxSuffix, MAX_NAME_LEN]
  · exact List.suffix_append _ _
  · simp [makeIdxName, truncateIdxName, h, hs]

set_option maxRecDepth 8192 in
/-- C6 witness: a short name is emitted unchanged, a 70-character name ending
in _idx is truncated to 63 characters keeping the suffix, and a 70-character
name without the suffix is fatal. -/
theorem claim_C6_idx_name_truncation_witness :
    makeIdxName c6table c6short false = Except.ok (composedIdxName c6table c6short false) ∧
    (makeIdxName c6table c6longOk false =
        Except.ok ((composedIdxName c6table c6longOk false).take (MAX_NAME_LEN - 4) ++
          idxSuffix) ∧
      ((composedIdxName c6table c6longOk false).take (MAX_NAME_LEN - 4) ++
          idxSuffix).length = MAX_NAME_LEN ∧
      idxSuffix <:+ ((composedIdxName c6table c6longOk false).take (MAX_NAME_LEN - 4) ++
          idxSuffix)) ∧
    makeIdxName c6table c6longBad false =
      Except.error (composedIdxName c6table c6longBad false) :=
  ⟨(claim_C6_idx_name_truncation c6table c6short false).1 (by decide),
   (claim_C6_idx_name_truncation c6table c6longOk false).2.1 (by decide) (by decide),
   (claim_C6_idx_name_truncation c6table c6longBad false).2.2 (by decide) (by decide)⟩

/-- C1, settled as a code bug.  Unsigned case (the claim and the spec hold):
an integer column with precision 10, scale -1 and the UNSIGNED flag yields the
referenced domain public.uinteger10 with check constraint
VALUE >= 0 AND VALUE <= 9999999999 and the conversion continues.  Signed
case: the claim says the conversion continues normally with domain integer10,
but the unconditional flags.remove(UNSIGNED) of line 473 raises ValueError
because the flag is absent, so the conversion aborts. -/
theorem claim_C1_precision_domain :
    applyLenPrecScale (-1) 10 (-1) "0" "integer" ["UNSIGNED"] initDomState =
      Except.ok ⟨"public.uinteger10", [], "0", none,
        ⟨["uinteger10", "usmallint", "uinteger", "ubigint"],
         [⟨"usmallint", "smallint", "ge0", "VALUE >= 0"⟩,
          ⟨"uinteger", "integer", "ge0", "VALUE >= 0"⟩,
          ⟨"ubigint", "bigint", "ge0", "VALUE >= 0"⟩,
          ⟨"uinteger10", "integer", "range10",
            "VALUE >= 0 AND VALUE <= 9999999999"⟩]⟩⟩ ∧
    applyLenPrecScale (-1) 10 (-1) "0" "integer" [] initDomState =
      Except.error "ValueError: list.remove(x): x not in list" :=
  ⟨rfl, rfl⟩

theorem domainStepCore_fst (ty : String) (p : Int) (u : Bool) (st : DomState) :
    (domainStepCore ty p u st).1 = "public." ++ mkDomainName ty p u := by
  simp only [domainStepCore]
  split <;> rfl

theorem domainStepCore_mem_domains (ty : String) (p : Int) (u : Bool) (st : DomState)
    (n : String) :
    n ∈ (domainStepCore ty p u st).2.domains ↔
      n ∈ st.domains ∨ n = mkDomainName ty p u := by
  simp only [domainStepCore]
  split
  · next h => exact ⟨Or.inl, fun h1 => h1.elim id (fun he => he ▸ h)⟩
  · next h => simp [List.mem_cons, or_comm]

theorem domainStepCore_count (ty : String) (p : Int) (u : Bool) (st : DomState)
    (n : String) :
    emittedCount (domainStepCore ty p u st).2 n =
      emittedCount st n +
        (if n = mkDomainName ty p u ∧ mkDomainName ty p u ∉ st.domains then 1 else 0) := by
  simp only [domainStepCore, emittedCount]
  split
  · next h => simp [h]
  · next h =>
    rw [List.map_append, List.count_append]
    by_cases hn : n = mkDomainName ty p u
    · subst hn
      simp [h, List.count_singleton]
    · simp [h, List.count_singleton, hn, Ne.symm hn]

theorem domainStep_ok (ty : String) (p : Int) (flags : List String) (st : DomState)
    (o : String) (fl : List String) (st1 : DomState)
    (h : domainStep ty p flags st = Except.ok (o, fl, st1)) :
    o = "public." ++ mkDomainName ty p (decide ("UNSIGNED" ∈ flags)) ∧
    st1 = (domainStepCore ty p (decide ("UNSIGNED" ∈ flags)) st).2 := by
  by_cases hm : "UNSIGNED" ∈ flags
  · simp only [domainStep, if_pos hm, Except.ok.injEq, Prod.mk.injEq] at h
    obtain ⟨h1, _, h3⟩ := h
    exact ⟨by rw [← h1, domainStepCore_fst], h3.symm⟩
  · simp only [domainStep, if_neg hm] at h
    exact Except.noConfusion h

theorem runDomains_out (rs : List DomReq) (st : DomState) (outs : List String)
    (st2 : DomState) (h : runDomains rs st = Except.ok (outs, st2)) :
    outs = rs.map (fun r => "public." ++ dnameOf r) := by
  induction rs generalizing st outs with
  | nil =>
    simp only [runDomains, Except.ok.injEq, Prod.mk.injEq] at h
    simp [← h.1]
  | cons r rs ih =>
    simp only [runDomains] at h
    split at h
    · exact Except.noConfusion h
    · rename_i o fl st1 hstep
      split at h
      · exact Except.noConfusion h
      · rename_i outs1 stw hrun
        simp only [Except.ok.injEq, Prod.mk.injEq] at h
        obtain ⟨h1, h2⟩ := h
        obtain ⟨ho, _⟩ := domainStep_ok _ _ _ _ _ _ _ hstep
        rw [← h1, List.map_cons, ho, ih st1 outs1 (h2 ▸ hrun)]
        rfl

theorem runDomains_mono (rs : List DomReq) (st : DomState) (outs : List String)
    (st2 : DomState) (h : runDomains rs st = Except.ok (outs, st2)) :
    ∀ n ∈ st.domains, n ∈ st2.domains := by
  induction rs generalizing st outs with
  | nil =>
    simp only [runDomains, Except.ok.injEq, Prod.mk.injEq] at h
    rw [← h.2]
    exact fun n hn => hn
  | cons r rs ih =>
    simp only [runDomains] at h
    split at h
    · exact Except.noConfusion h
    · rename_i o fl st1 hstep
      split at h
      · exact Except.noConfusion h
      · rename_i outs1 stw hrun
        simp only [Except.ok.injEq, Prod.mk.injEq] at h
        obtain ⟨_, h2⟩ := h
        obtain ⟨_, hst1⟩ := domainStep_ok _ _ _ _ _ _ _ hstep
        intro n hn
        have hn1 : n ∈ st1.domains := by
          rw [hst1, domainStepCore_mem_domains]
          exact Or.inl hn
        exact ih st1 outs1 (h2 ▸ hrun) n hn1

theorem runDomains_dname_mem (rs : List DomReq) (st : DomState) (outs : List String)
    (st2 : DomState) (h : runDomains rs st = Except.ok (outs, st2)) :
    ∀ r ∈ rs, dnameOf r ∈ st2.domains := by
  induction rs generalizing st outs with
  | nil => intro r hr; exact absurd hr (List.not_mem_nil r)
  | cons q rs ih =>
    simp only [runDomains] at h
    split at h
    · exact Except.noConfusion h
    · rename_i o fl st1 hstep
      split at h
      · exact Except.noConfusion h
      · rename_i outs1 stw hrun
        simp only [Except.ok.injEq, Prod.mk.injEq] at h
        obtain ⟨_, h2⟩ := h
        obtain ⟨_, hst1⟩ := domainStep_ok _ _ _ _ _ _ _ hstep
        intro r hr
        rcases List.mem_cons.mp hr with hrq | hrtail
        · subst hrq
          have hn1 : dnameOf r ∈ st1.domains := by
            rw [hst1, domainStepCore_mem_domains]
            exact Or.inr rfl
          exact runDomains_mono rs st1 outs1 st2 (h2 ▸ hrun) _ hn1
        · exact ih st1 outs1 (h2 ▸ hrun) r hrtail

theorem runDomains_count (rs : List DomReq) (st : DomState) (outs : List String)
    (st2 : DomState) (h : runDomains rs st = Except.ok (outs, st2)) (n : String) :
    emittedCount st2 n =
      emittedCount st n + (if n ∈ st2.domains ∧ n ∉ st.domains then 1 else 0) := by
  induction rs generalizing st outs with
  | nil =>
    simp only [runDomains, Except.ok.injEq, Prod.mk.injEq] at h
    rw [← h.2]
    simp
  | cons r rs ih =>
    simp only [runDomains] at h
    split at h
    · exact Except.noConfusion h
    · rename_i o fl st1 hstep
      split at h
      · exact Except.noConfusion h
      · rename_i outs1 stw hrun
        simp only [Except.ok.injEq, Prod.mk.injEq] at h
        obtain ⟨_, h2⟩ := h
        obtain ⟨_, hst1⟩ := domainStep_ok _ _ _ _ _ _ _ hstep
        have hc1 : emittedCount st1 n =
            emittedCount st n +
              (if n = mkDomainName r.ty r.prec (decide ("UNSIGNED" ∈ r.flags)) ∧
                  mkDomainName r.ty r.prec (decide ("UNSIGNED" ∈ r.flags)) ∉ st.domains
                then 1 else 0) := by
          rw [hst1]
          exact domainStepCore_count _ _ _ _ _
        have hm1 : n ∈ st1.domains ↔
            n ∈ st.domains ∨ n = mkDomainName r.ty r.prec (decide ("UNSIGNED" ∈ r.flags)) := by
          rw [hst1]
          exact domainStepCore_mem_domains _ _ _ _ _
        have hihn := ih st1 outs1 (h2 ▸ hrun)
        have hmono := runDomains_mono rs st1 outs1 st2 (h2 ▸ hrun)
        set dn := mkDomainName r.ty r.prec (decide ("UNSIGNED" ∈ r.flags)) with hdn
        by_cases h1 : n ∈ st.domains
        · have hin1 : n ∈ st1.domains := hm1.mpr (Or.inl h1)
          have hin2 : n ∈ st2.domains := hmono n hin1
          rw [if_neg (fun hc => hc.2 hin1)] at hihn
          rw [if_neg (fun hc => hc.2 h1)]
          rw [if_neg (fun hc => hc.2 (hc.1 ▸ h1))] at hc1
          omega
        · by_cases h2n : n = dn
          · have hin1 : n ∈ st1.domains := hm1.mpr (Or.inr h2n)
            have hin2 : n ∈ st2.domains := hmono n hin1
            rw [if_pos ⟨h2n, h2n ▸ h1⟩] at hc1
            rw [if_neg (fun hc => hc.2 hin1)] at hihn
            rw [if_pos ⟨hin2, h1⟩]
            omega
          · have hnin1 : n ∉ st1.domains := fun hc =>
              (hm1.mp hc).elim h1 h2n
            rw [if_neg (fun hc => h2n hc.1)] at hc1
            by_cases h3 : n ∈ st2.domains
            · rw [if_pos ⟨h3, hnin1⟩] at hihn
              rw [if_pos ⟨h3, h1⟩]
              omega
            · rw [if_neg (fun hc => h3 hc.1)] at hihn
              rw [if_neg (fun hc => h3 hc.1)]
              omega

/-- C4: when two columns of one run require the same (base type, precision,
unsigned) combination, the run appends exactly one domain element with the
composed name, and every such column references that single domain by name
(type public.<dname>), the later ones reusing the memoized entry. -/
theorem claim_C4_domain_memoization (reqs : List DomReq) (outs : List String)
    (st : DomState) (r : DomReq)
    (h : runDomains reqs initDomState = Except.ok (outs, st))
    (hdup : 2 ≤ reqs.count r)
    (hni : dnameOf r ∉ initDomState.domains) :
    emittedCount st (dnameOf r) = 1 ∧
    outs = reqs.map (fun q => "public." ++ dnameOf q) := by
  have hmem : r ∈ reqs := List.count_pos_iff.mp (by omega)
  have hdn : dnameOf r ∈ st.domains := runDomains_dname_mem _ _ _ _ h r hmem
  have hcnt := runDomains_count _ _ _ _ h (dnameOf r)
  have hzero : emittedCount initDomState (dnameOf r) = 0 := by
    rw [emittedCount, List.count_eq_zero]
    intro hmem2
    apply hni
    simpa [initDomState] using hmem2
  rw [hzero, if_pos ⟨hdn, hni⟩] at hcnt
  exact ⟨by omega, runDomains_out _ _ _ _ h⟩

/-- C4 witness: two unsigned integer columns of precision 10 yield one
uinteger10 domain element and both reference public.uinteger10. -/
theorem claim_C4_domain_memoization_witness :
    emittedCount c4st (dnameOf c4req) = 1 ∧
    c4outs = c4reqs.map (fun q => "public." ++ dnameOf q) :=
  claim_C4_domain_memoization c4reqs c4outs c4st c4req rfl (by decide) (by decide)

theorem enumStep_ok (enums : List String) (c t : String) (e1 : List String)
    (h : enumStep enums c = Except.ok (t, e1)) :
    e1 = t :: enums ∧ t ∉ enums ∧
      (t = "enum_" ++ c ∨ ∃ k : Nat, t = "enum_" ++ toString k ++ "_" ++ c) := by
  simp only [enumStep] at h
  split at h
  · next hmem =>
    split at h
    · exact Except.noConfusion h
    · next hmem2 =>
      simp only [Except.ok.injEq, Prod.mk.injEq] at h
      obtain ⟨h1, h2⟩ := h
      subst h1
      exact ⟨h2.symm, hmem2, Or.inr ⟨enums.length + 1, rfl⟩⟩
  · next hmem =>
    simp only [Except.ok.injEq, Prod.mk.injEq] at h
    obtain ⟨h1, h2⟩ := h
    subst h1
    exact ⟨h2.symm, hmem, Or.inl rfl⟩

theorem runEnums_ok (cols : List String) (enums0 names enums1 : List String)
    (h : runEnums cols enums0 = Except.ok (names, enums1)) :
    names.Nodup ∧ (∀ n ∈ names, n ∉ enums0) ∧ (∀ n ∈ names, n ∈ enums1) ∧
      (∀ n ∈ enums0, n ∈ enums1) ∧
      List.Forall₂
        (fun c t => t = "enum_" ++ c ∨ ∃ k : Nat, t = "enum_" ++ toString k ++ "_" ++ c)
        cols names := by
  induction cols generalizing enums0 names with
  | nil =>
    simp only [runEnums, Except.ok.injEq, Prod.mk.injEq] at h
    obtain ⟨h1, h2⟩ := h
    subst h2
    simp [← h1]
  | cons c cs ih =>
    simp only [runEnums] at h
    split at h
    · exact Except.noConfusion h
    · rename_i t e1 hstep
      split at h
      · exact Except.noConfusion h
      · rename_i ts e2 hrun
        simp only [Except.ok.injEq, Prod.mk.injEq] at h
        obtain ⟨h1, h2⟩ := h
        obtain ⟨he1, htnew, hshape⟩ := enumStep_ok enums0 c t e1 hstep
        obtain ⟨hnd, hnot0, hin1, hmono, hfa⟩ := ih e1 ts (h2 ▸ hrun)
        subst he1
        have htnotts : t ∉ ts := fun hc => (hnot0 t hc) (List.mem_cons_self t enums0)
        refine ⟨?_, ?_, ?_, ?_, ?_⟩
        · rw [← h1]
          exact List.nodup_cons.mpr ⟨htnotts, hnd⟩
        · rw [← h1]
          intro n hn
          rcases List.mem_cons.mp hn with rfl | hn2
          · exact htnew
          · exact fun hc => hnot0 n hn2 (List.mem_cons_of_mem t hc)
        · rw [← h1]
          intro n hn
          rcases List.mem_cons.mp hn with rfl | hn2
          · exact hmono _ (List.mem_cons_self _ enums0)
          · exact hin1 n hn2
        · exact fun n hn => hmono n (List.mem_cons_of_mem t hn)
        · rw [← h1]
          exact List.Forall₂.cons hshape hfa

/-- C5: whenever a run of ENUM column conversions completes (no assertion
failure), all synthesized enumeration type names are distinct, and each name
is either the default enum_<colname> or the colliding form with a
disambiguating ordinal inserted (enum_<k>_<colname>). -/
theorem claim_C5_enum_name_uniqueness (cols names enums : List String)
    (h : runEnums cols [] = Except.ok (names, enums)) :
    names.Nodup ∧
      List.Forall₂
        (fun c t => t = "enum_" ++ c ∨ ∃ k : Nat, t = "enum_" ++ toString k ++ "_" ++ c)
        cols names := by
  obtain ⟨hnd, _, _, _, hfa⟩ := runEnums_ok cols [] names enums h
  exact ⟨hnd, hfa⟩

/-- C5 witness: two columns both named a yield the distinct type names enum_a
and enum_2_a. -/
theorem claim_C5_enum_name_uniqueness_witness :
    (["enum_a", "enum_2_a"] : List String).Nodup ∧
      List.Forall₂
        (fun c t => t = "enum_" ++ c ∨ ∃ k : Nat, t = "enum_" ++ toString k ++ "_" ++ c)
        ["a", "a"] ["enum_a", "enum_2_a"] :=
  claim_C5_enum_name_uniqueness ["a", "a"] ["enum_a", "enum_2_a"] ["enum_2_a", "enum_a"] rfl

/-- C3: a column defaulting to CURRENT_TIMESTAMP ON UPDATE CURRENT_TIMESTAMP
has its emitted default rewritten to CURRENT_TIMESTAMP; processing two such
columns with the same name on different tables appends exactly one shared
trigger function (keyed by column name) and one BEFORE UPDATE, per-line,
upd-event-only trigger per occurrence on the respective table, both invoking
that function. -/
theorem claim_C3_on_update_timestamp (ty t1 t2 c : String) (st : TsState)
    (hf : "update_" ++ c ++ "_on_update" ∉ st.funcNames) :
    (processDefault ty onUpdStr t1 c st).1 = "CURRENT_TIMESTAMP" ∧
    (processDefault ty onUpdStr t2 c (processDefault ty onUpdStr t1 c st).2).1 =
      "CURRENT_TIMESTAMP" ∧
    (processDefault ty onUpdStr t2 c (processDefault ty onUpdStr t1 c st).2).2.funcs =
      st.funcs ++ [createUpdateTimestampFunction ("update_" ++ c ++ "_on_update") c] ∧
    (processDefault ty onUpdStr t2 c (processDefault ty onUpdStr t1 c st).2).2.trigs =
      st.trigs ++ [mkUpdTrigger t1 c, mkUpdTrigger t2 c] := by
  have hchain : ∀ tn : String, ∀ s : TsState,
      processDefault ty onUpdStr tn c s =
        ("CURRENT_TIMESTAMP",
          { (if ("update_" ++ c ++ "_on_update") ∈ s.funcNames then s
             else
               { funcNames := s.funcNames ++ ["update_" ++ c ++ "_on_update"],
                 funcs := s.funcs ++
                   [createUpdateTimestampFunction ("update_" ++ c ++ "_on_update") c],
                 trigs := s.trigs }) with
            trigs := (if ("update_" ++ c ++ "_on_update") ∈ s.funcNames then s
             else
               { funcNames := s.funcNames ++ ["update_" ++ c ++ "_on_update"],
                 funcs := s.funcs ++
                   [createUpdateTimestampFunction ("update_" ++ c ++ "_on_update") c],
                 trigs := s.trigs }).trigs ++ [mkUpdTrigger tn c] }) := by
    intro tn s
    rw [processDefault, if_neg (by decide), if_neg (by decide), if_neg (by decide),
      if_neg (by decide), if_pos rfl]
  rw [hchain t1 st, hchain t2 _]
  rw [if_neg hf]
  have hmem : ("update_" ++ c ++ "_on_update") ∈
      (st.funcNames ++ ["update_" ++ c ++ "_on_update"]) := by
    simp
  rw [if_pos hmem]
  refine ⟨rfl, rfl, rfl, ?_⟩
  simp

/-- C3 witness: a column updated_at on tables t1 and t2 starting from the
empty state yields one function and two triggers. -/
theorem claim_C3_on_update_timestamp_witness :
    (processDefault "timestamp with time zone" onUpdStr "t1" "updated_at" ⟨[], [], []⟩).1 =
      "CURRENT_TIMESTAMP" ∧
    (processDefault "timestamp with time zone" onUpdStr "t2" "updated_at"
        (processDefault "timestamp with time zone" onUpdStr "t1" "updated_at"
          ⟨[], [], []⟩).2).1 = "CURRENT_TIMESTAMP" ∧
    (processDefault "timestamp with time zone" onUpdStr "t2" "updated_at"
        (processDefault "timestamp with time zone" onUpdStr "t1" "updated_at"
          ⟨[], [], []⟩).2).2.funcs =
      [] ++ [createUpdateTimestampFunction "update_updated_at_on_update" "updated_at"] ∧
    (processDefault "timestamp with time zone" onUpdStr "t2" "updated_at"
        (processDefault "timestamp with time zone" onUpdStr "t1" "updated_at"
          ⟨[], [], []⟩).2).2.trigs =
      [] ++ [mkUpdTrigger "t1" "updated_at", mkUpdTrigger "t2" "updated_at"] :=
  claim_C3_on_update_timestamp "timestamp with time zone" "t1" "t2" "updated_at"
    ⟨[], [], []⟩ (by decide)

/-- C7: a foreign key without a referencedTable attribute is skipped without
error and yields no relationship element; a foreign key with a
referencedTable whose many flag is false, or owning a number of columns
different from one, makes the conversion fail. -/
theorem claim_C7_fk_relationship_errors (tables : List (String × String)) (fk : FKey) :
    (fk.referencedTable = none → processFk tables fk = Except.ok none) ∧
    (∀ rt, fk.referencedTable = some rt →
      (fk.many = false ∨ fk.columns.length ≠ 1) →
      exceptIsError (processFk tables fk) = true) := by
  constructor
  · intro h
    simp only [processFk, h]
  · intro rt hrt hbad
    simp only [processFk, hrt]
    rcases hbad with hm | hc
    · rw [hm]
      rfl
    · cases hfm : fk.many with
      | false => rfl
      | true =>
        simp only [Bool.not_true, Bool.false_eq_true, if_false]
        cases hfind : tables.find? (fun t => t.1 == rt) with
        | none => rfl
        | some rtable =>
          rcases hcl : fk.columns with _ | ⟨a, _ | ⟨b, rest⟩⟩
          · rfl
          · rw [hcl] at hc
            simp at hc
          · rfl

/-- C7 witness: a foreign key without referencedTable is skipped; one with a
referencedTable but many = false is fatal. -/
theorem claim_C7_fk_relationship_errors_witness :
    processFk [] c7fkNoRef = Except.ok none ∧
    exceptIsError (processFk [] c7fkNotMany) = true :=
  ⟨(claim_C7_fk_relationship_errors [] c7fkNoRef).1 rfl,
   (claim_C7_fk_relationship_errors [] c7fkNotMany).2 "tid" rfl (Or.inl rfl)⟩

theorem insertFkDesc_split (x : FKey) (A B : List FKey)
    (hA : ∀ a ∈ A, a.primary = true) (hB : ∀ b ∈ B, b.primary = false) :
    insertFkDesc x (A ++ B) =
      if x.primary then A ++ x :: B else A ++ B ++ [x] := by
  induction A with
  | nil =>
    simp only [List.nil_append]
    induction B with
    | nil => cases hx : x.primary <;> simp [insertFkDesc]
    | cons b bs ihB =>
      have hb := hB b (List.mem_cons_self b bs)
      have hbs : ∀ y ∈ bs, y.primary = false :=
        fun y hy => hB y (List.mem_cons_of_mem _ hy)
      rw [insertFkDesc, hb]
      cases hx : x.primary
      · simp only [Bool.false_and, Bool.false_eq_true, if_false]
        rw [ihB hbs, hx]
        simp
      · simp
  | cons a as ihA =>
    have ha := hA a (List.mem_cons_self a as)
    have has : ∀ y ∈ as, y.primary = true :=
      fun y hy => hA y (List.mem_cons_of_mem _ hy)
    rw [List.cons_append, insertFkDesc, ha]
    simp only [Bool.not_true, Bool.and_false, Bool.false_eq_true, if_false]
    rw [ihA has]
    cases hx : x.primary <;> simp

theorem sortFksByPrimary_go (l s : List FKey) :
    l.foldl (fun acc x => insertFkDesc x acc)
        (s.filter (fun f => f.primary) ++ s.filter (fun f => !f.primary)) =
      (s ++ l).filter (fun f => f.primary) ++ (s ++ l).filter (fun f => !f.primary) := by
  induction l generalizing s with
  | nil => simp
  | cons x xs ih =>
    rw [List.foldl_cons]
    have h1 : insertFkDesc x
        (s.filter (fun f => f.primary) ++ s.filter (fun f => !f.primary)) =
        ((s ++ [x]).filter (fun f => f.primary) ++
          (s ++ [x]).filter (fun f => !f.primary)) := by
      rw [insertFkDesc_split x _ _
        (fun a ha => by simpa using (List.of_mem_filter ha))
        (fun b hb => by simpa using (List.of_mem_filter hb))]
      cases hx : x.primary <;> simp [List.filter_append, hx]
    rw [h1, ih (s ++ [x])]
    simp

/-- C8: the conversion is deterministic - the embedded pipeline is a pure
function of its input, so running it twice yields identical output - and the
only sort, of foreign keys by their primary flag at line 657, is stable:
identifying relationships come first and both groups keep their original
relative order. -/
theorem claim_C8_determinism_and_stable_sort :
    (∀ fks : List FKey, sortFksByPrimary fks =
      fks.filter (fun f => f.primary) ++ fks.filter (fun f => !f.primary)) ∧
    (∀ env : ConvEnv, convert env = convert env) := by
  constructor
  · intro fks
    have := sortFksByPrimary_go fks []
    simpa [sortFksByPrimary] using this
  · intro env
    rfl

/-- C9: on every fatal path of the driver no output file is written: the
destination is opened only after extraction, validation, model conversion and
merging all completed. -/
theorem claim_C9_no_output_on_fatal (env : ConvEnv)
    (h : exceptIsError (convert env).1 = true) :
    (convert env).2 = [] := by
  unfold convert at h ⊢
  cases hs : convertSteps env with
  | error e => rfl
  | ok merged =>
    rw [hs] at h
    exact absurd h (by simp [exceptIsError])

/-- C9 witness: a run failing at the first step writes no file. -/
theorem claim_C9_no_output_on_fatal_witness : (convert c9env).2 = [] :=
  claim_C9_no_output_on_fatal c9env rfl

/-- C10: a table figure whose layer attribute matches no layer gets none from
the lookup (no failure), its table element carries no tag child, and its
position is exactly (0,0) - the figure coordinates are ignored instead of
being scaled. -/
theorem claim_C10_missing_layer (layers : List LayerD) (fig : FigureD)
    (h : ∀ l ∈ layers, l.id ≠ fig.layer) :
    getFigureLayer layers fig = none ∧
    tableTagName (getFigureLayer layers fig) = none ∧
    tablePos (getFigureLayer layers fig) fig = (0, 0) := by
  have hfind : getFigureLayer layers fig = none := by
    rw [getFigureLayer, List.find?_eq_none]
    intro l hl
    simpa using h l hl
  refine ⟨hfind, ?_, ?_⟩
  · rw [hfind]
    rfl
  · rw [hfind]
    show (pyInt (0 * POS_SCALE_X), pyInt (0 * POS_SCALE_Y)) = (0, 0)
    norm_num [pyInt]

/-- C10 witness: the figure at (100, 200) with a dangling layer reference
gets no tag and position (0, 0), not the scaled (180, 240). -/
theorem claim_C10_missing_layer_witness :
    getFigureLayer c10layers c10fig = none ∧
    tableTagName (getFigureLayer c10layers c10fig) = none ∧
    tablePos (getFigureLayer c10layers c10fig) c10fig = (0, 0) :=
  claim_C10_missing_layer c10layers c10fig (by decide)

end MwbDbm
